import Mathlib

/-!
Verification development for the farm planning and fulfillment engine.

Dates are modelled as integers (days); ISO weeks and years as naturals or
integers; decimal quantities as rationals.  Each definition is a direct
shallow embedding of one function of the source code, named after it.
-/

/-! ## Inventory ledger (operations/models.py, InventoryLedger.save) -/

/-- One row of the inventory ledger for a fixed crop: event date (day number),
creation order (as assigned by created_at), signed quantity, and the stored
running balance. -/
structure LedgerEntry where
  eventDate : Int
  createdAt : Nat
  quantity : ℚ
  runningBalance : ℚ
deriving DecidableEq, Repr

/-- Strict later-than on the (event_date, created_at) key, as used by the
order_by("-event_date", "-created_at") query. -/
def ledgerLaterKey (a b : LedgerEntry) : Bool :=
  decide (a.eventDate < b.eventDate) ||
    (decide (a.eventDate = b.eventDate) && decide (a.createdAt < b.createdAt))

/-- The query in InventoryLedger.save: among entries with event_date on or
before d, the one maximal in (event_date, created_at). -/
def lastOnOrBefore (entries : List LedgerEntry) (d : Int) : Option LedgerEntry :=
  (entries.filter (fun e => decide (e.eventDate ≤ d))).foldl
    (fun acc e =>
      match acc with
      | none => some e
      | some b => if ledgerLaterKey b e then some e else some b)
    none

/-- InventoryLedger.save with running_balance unset: the new row takes the
balance of the preceding (event_date, created_at) position plus its own
quantity; no other row is touched. -/
def recordEntry (entries : List LedgerEntry) (d : Int) (q : ℚ) : List LedgerEntry :=
  let prev :=
    match lastOnOrBefore entries d with
    | some e => e.runningBalance
    | none => 0
  entries ++ [⟨d, entries.length, q, prev + q⟩]

/-- Run a sequence of record calls for one crop, starting from an empty
ledger. -/
def runRecords (calls : List (Int × ℚ)) : List LedgerEntry :=
  calls.foldl (fun acc c => recordEntry acc c.1 c.2) []

/-- Nonstrict order on the (event_date, created_at) key. -/
def ledgerKeyLe (a b : LedgerEntry) : Bool :=
  decide (a.eventDate < b.eventDate) ||
    (decide (a.eventDate = b.eventDate) && decide (a.createdAt ≤ b.createdAt))

/-- Prefix sum of signed quantities of all entries up to and including the
(event_date, creation order) position of e. -/
def prefixSumAt (entries : List LedgerEntry) (e : LedgerEntry) : ℚ :=
  ((entries.filter (fun f => ledgerKeyLe f e)).map LedgerEntry.quantity).sum

/-- The ledger invariant claimed by the spec: every stored running balance
equals the prefix sum at its own position. -/
def ledgerConsistent (entries : List LedgerEntry) : Prop :=
  ∀ e ∈ entries, e.runningBalance = prefixSumAt entries e

instance instDecLedgerConsistent (entries : List LedgerEntry) :
    Decidable (ledgerConsistent entries) := by
  unfold ledgerConsistent
  exact List.decidableBAll _ entries

/-! ## Planned-field derivation (planning/models.py, Planting.save) -/

/-- Planting.save derivation for unset planned harvest dates:
first = plant date + dtm_days, last = first + 7 days times
(harvest_weeks - 1), with the subtraction taken over the integers exactly as
the Python timedelta arithmetic does. -/
def derivePlannedHarvestWindow (plantDate : Int) (dtmDays harvestWeeks : Nat) :
    Int × Int :=
  let first := plantDate + (dtmDays : Int)
  (first, first + 7 * ((harvestWeeks : Int) - 1))

/-! ## Harvest event generation (planning/models.py and reference/models.py) -/

/-- CropByseason.weekly_yield_per_bedfoot: total yield divided by
harvest_weeks, and 0 when harvest_weeks is 0. -/
def weekly_yield_per_bedfoot (totalYield : ℚ) (harvestWeeks : Nat) : ℚ :=
  if harvestWeeks ≠ 0 then totalYield / (harvestWeeks : ℚ) else 0

/-- One generated harvest event: planned date and planned quantity. -/
structure HarvestEventRow where
  plannedDate : Int
  plannedQuantity : ℚ
deriving DecidableEq, Repr

/-- Loop body of Planting.generate_harvest_events: starting at the first
harvest date, emit one event per week while current is on or before the last
harvest date.  The fuel argument bounds the iteration count; the caller
supplies enough fuel for the loop to run to completion. -/
def genHarvestAux (fuel : Nat) (current last : Int) (qty : ℚ) :
    List HarvestEventRow :=
  match fuel with
  | 0 => []
  | f + 1 =>
    if current ≤ last then
      ⟨current, qty⟩ :: genHarvestAux f (current + 7) last qty
    else []

/-- Planting.generate_harvest_events: weekly events from the first to the
last planned harvest date inclusive, each with quantity
weekly_yield_per_bedfoot times planned_bedfeet (passed in as qty). -/
def generate_harvest_events (first last : Int) (qty : ℚ) : List HarvestEventRow :=
  genHarvestAux (last + 1 - first).toNat first last qty

/-! ## Helper lemmas for the harvest-event loop -/

theorem genHarvestAux_of_gt (fuel : Nat) (current last : Int) (qty : ℚ)
    (h : last < current) : genHarvestAux fuel current last qty = [] := by
  cases fuel with
  | zero => rfl
  | succ f => simp [genHarvestAux, not_le.2 h]

theorem genHarvestAux_closed_form (fuel : Nat) :
    ∀ current last : Int, ∀ qty : ℚ, current ≤ last →
      (last + 1 - current).toNat ≤ fuel →
      genHarvestAux fuel current last qty =
        (List.range ((last - current).toNat / 7 + 1)).map
          (fun i => ⟨current + 7 * (i : Int), qty⟩) := by
  induction fuel with
  | zero =>
    intro current last qty hle hfuel
    omega
  | succ f ih =>
    intro current last qty hle hfuel
    rw [genHarvestAux, if_pos hle]
    by_cases hnext : current + 7 ≤ last
    · rw [ih (current + 7) last qty hnext (by omega)]
      have hgap : (last - current).toNat / 7 + 1 =
          ((last - (current + 7)).toNat / 7 + 1) + 1 := by omega
      rw [hgap]
      nth_rewrite 2 [List.range_succ_eq_map]
      rw [List.map_cons, List.map_map]
      congr 1
      · simp
      · apply List.map_congr_left
        intro i _
        simp only [Function.comp_apply]
        congr 1
        push_cast
        ring
    · have hend : genHarvestAux f (current + 7) last qty = [] :=
        genHarvestAux_of_gt f (current + 7) last qty (by omega)
      rw [hend]
      have hsmall : (last - current).toNat / 7 + 1 = 1 := by omega
      rw [hsmall]
      simp [List.range_succ]

theorem generate_harvest_events_closed_form (first last : Int) (qty : ℚ)
    (h : first ≤ last) :
    generate_harvest_events first last qty =
      (List.range ((last - first).toNat / 7 + 1)).map
        (fun i => ⟨first + 7 * (i : Int), qty⟩) := by
  exact genHarvestAux_closed_form _ first last qty h (le_refl _)

/-! ## Rotation checks (core/views.py and planning/views.py) -/

/-- RotationRule: botanical family (as an id) and minimum gap in years. -/
structure RotationRuleRec where
  family : Nat
  minGapYears : Nat
deriving DecidableEq, Repr

/-- RotationHistory row: block, family and year of the historical placement. -/
structure RotationHistoryRec where
  block : Nat
  family : Nat
  year : Int
deriving DecidableEq, Repr

/-- RotationRule.objects.filter(botanical_family=family).first(). -/
def findRule (rules : List RotationRuleRec) (family : Nat) : Option RotationRuleRec :=
  rules.find? (fun r => r.family == family)

/-- Rotation check of ClonePlanUIView.get_context_data: no rule means ok;
otherwise a violation exactly when some history entry for (block, family) has
year in the half-open interval from proposedYear minus the gap up to but
excluding proposedYear. -/
def cloneRotationViolation (rules : List RotationRuleRec)
    (history : List RotationHistoryRec) (block family : Nat)
    (proposedYear : Int) : Bool :=
  match findRule rules family with
  | none => false
  | some rule =>
    history.any (fun h =>
      h.block == block && h.family == family &&
        decide (proposedYear - (rule.minGapYears : Int) ≤ h.year) &&
        decide (h.year < proposedYear))

/-- The order_by("-year").first() query of PlantingDetailView: the most recent
year among history entries for (block, family). -/
def latestFamilyYear (history : List RotationHistoryRec) (block family : Nat) :
    Option Int :=
  ((history.filter (fun h => h.block == block && h.family == family)).map
    (fun h => h.year)).max?

/-- Rotation warning of PlantingDetailView.get_context_data: only when both a
rule and a most recent history entry exist, warn when the gap between the
planning year and that entry is strictly below the required minimum. -/
def detailRotationWarning (rules : List RotationRuleRec)
    (history : List RotationHistoryRec) (block family : Nat)
    (planningYear : Int) : Bool :=
  match findRule rules family, latestFamilyYear history block family with
  | some rule, some y => decide (planningYear - y < (rule.minGapYears : Int))
  | _, _ => false

/-! ## Revenue projection (reports/views.py, RevenueProjectionView) -/

/-- SalesChannel: active week range and weekly revenue target. -/
structure SalesChannelRec where
  startWeek : Nat
  endWeek : Nat
  weeklyTarget : ℚ
deriving DecidableEq, Repr

/-- The weekly target loop of RevenueProjectionView.get_context_data: add the
weekly target of every channel with start_week at most wk at most end_week. -/
def weekTarget (channels : List SalesChannelRec) (wk : Nat) : ℚ :=
  channels.foldl
    (fun acc ch =>
      if ch.startWeek ≤ wk ∧ wk ≤ ch.endWeek then acc + ch.weeklyTarget else acc)
    0

/-- Weekly target as the spec words it, for comparison: a channel is active in
week wk when its range contains wk, with ranges wrapping the year boundary
when end_week is below start_week. -/
def weekTargetSpecWrapped (channels : List SalesChannelRec) (wk : Nat) : ℚ :=
  channels.foldl
    (fun acc ch =>
      if (if ch.startWeek ≤ ch.endWeek then ch.startWeek ≤ wk ∧ wk ≤ ch.endWeek
          else ch.startWeek ≤ wk ∨ wk ≤ ch.endWeek)
      then acc + ch.weeklyTarget else acc)
    0

/-- Gap of one weekly projection row: projected revenue minus target. -/
def weekGap (projected target : ℚ) : ℚ := projected - target

/-- Week classification in RevenueProjectionView: a gap week has gap below 0. -/
def isDeficitWeek (gap : ℚ) : Bool := decide (gap < 0)

/-- Week classification in RevenueProjectionView: a surplus week has gap
above 0. -/
def isSurplusWeek (gap : ℚ) : Bool := decide (0 < gap)

/-! ## Bin recording (planning/models.py, HarvestEvent.record_bins) -/

/-- The crop fields read by record_bins: the optional units-per-bin
conversion, the default bin type and the harvest unit. -/
structure CropBinInfo where
  unitsPerBin : Option Nat
  harvestBin : String
  harvestUnit : String
deriving DecidableEq, Repr

/-- The mutable actual-harvest fields of a HarvestEvent touched by
record_bins. -/
structure HarvestActuals where
  actualDate : Option Int
  actualQuantity : Option ℚ
  actualUnits : String
  actualBins : Option ℚ
  actualBinType : String
deriving DecidableEq, Repr

/-- HarvestEvent.record_bins: store the bin count and bin type, then convert
to a quantity only when the crop has a truthy units_per_bin (present and
nonzero), and finally stamp actual_date with the recording date.  No failure
path exists. -/
def record_bins (crop : CropBinInfo) (ev : HarvestActuals) (binCount : ℚ)
    (binType : Option String) (today : Int) : HarvestActuals :=
  let ev1 : HarvestActuals :=
    { ev with
      actualBins := some binCount
      actualBinType :=
        match binType with
        | some t => t
        | none => crop.harvestBin }
  let ev2 : HarvestActuals :=
    match crop.unitsPerBin with
    | some upb =>
      if upb ≠ 0 then
        { ev1 with
          actualQuantity := some (binCount * (upb : ℚ))
          actualUnits := crop.harvestUnit }
      else ev1
    | none => ev1
  { ev2 with actualDate := some today }

/-! ## Season completion (core/views.py, CompleteSeasonView.post) -/

/-- Closed status enumeration of a Planting, from PlantingStatus in
planning/models.py. -/
inductive PStatus where
  | planned
  | seeded
  | planted
  | growing
  | harvesting
  | complete
  | failed
  | skipped
  | revised
deriving DecidableEq, Repr

/-- The fields of a Planting read by the season-completion reconciliation:
block, optional botanical family (blank modelled as none) and status. -/
structure SeasonPlanting where
  block : Nat
  family : Option Nat
  status : PStatus
deriving DecidableEq, Repr

/-- A persisted RotationHistory row. -/
structure RotationHistoryRow where
  block : Nat
  year : Int
  family : Nat
deriving DecidableEq, Repr

/-- RotationHistory.objects.update_or_create keyed on (block, year) with the
family in defaults: overwrite the family of an existing row with the same
(block, year), or append a fresh row. -/
def updateOrCreateHistory (rows : List RotationHistoryRow) (b : Nat) (y : Int)
    (f : Nat) : List RotationHistoryRow :=
  if rows.any (fun r => decide (r.block = b) && decide (r.year = y)) then
    rows.map (fun r => if r.block = b ∧ r.year = y then ⟨r.block, r.year, f⟩ else r)
  else rows ++ [⟨b, y, f⟩]

/-- One iteration of the CompleteSeasonView.post loop: plantings whose status
reached complete or harvesting and whose crop has a family are considered;
a (block, family) pair already seen is skipped, otherwise it is added to the
seen set and written through update_or_create. -/
def completeSeasonStep (year : Int)
    (st : List (Nat × Nat) × List RotationHistoryRow) (p : SeasonPlanting) :
    List (Nat × Nat) × List RotationHistoryRow :=
  if p.status = PStatus.complete ∨ p.status = PStatus.harvesting then
    match p.family with
    | none => st
    | some f =>
      if (p.block, f) ∈ st.1 then st
      else ((p.block, f) :: st.1, updateOrCreateHistory st.2 p.block year f)
  else st

/-- The rotation-history rows written by a season-completion run over the
given plantings, starting from an empty seen set and empty history for the
year. -/
def completeSeasonHistory (plantings : List SeasonPlanting) (year : Int) :
    List RotationHistoryRow :=
  (plantings.foldl (completeSeasonStep year) ([], [])).2

/-! ## Seed order calculation (operations/views.py, SeedOrderReportView) -/

/-- The order sizes producible by SeedOrderReportView._round_order, one
constructor per returned string shape; ozCeilWithLb carries the exact pound
value that the code formats to one decimal. -/
inductive SeedOrderSize where
  | pkt
  | quarterOz
  | halfOz
  | oneOz
  | ozCeil (n : ℤ)
  | ozCeilWithLb (n : ℤ) (lbs : ℚ)
  | lbCeil (n : ℤ)
  | unknownSize
deriving DecidableEq, Repr

/-- SeedOrderReportView._round_order: the retail rounding ladder. -/
def round_order (ounces : Option ℚ) : SeedOrderSize :=
  match ounces with
  | none => SeedOrderSize.unknownSize
  | some oz =>
    if oz < 1 / 10 then SeedOrderSize.pkt
    else if oz < 1 / 4 then SeedOrderSize.quarterOz
    else if oz < 1 / 2 then SeedOrderSize.halfOz
    else if oz < 1 then SeedOrderSize.oneOz
    else if oz < 4 then SeedOrderSize.ozCeil ⌈oz⌉
    else if oz / 16 < 1 then SeedOrderSize.ozCeilWithLb ⌈oz⌉ (oz / 16)
    else SeedOrderSize.lbCeil ⌈oz / 16⌉

/-- The per-crop aggregation of SeedOrderReportView.get_context_data: planned
bedfeet summed over the plantings of the crop. -/
def totalBedfeetForCrop (bedfeet : List Nat) : Nat := bedfeet.sum

/-- The seed count of SeedOrderReportView._calc_direct_seed: total bedfeet
times rows per bed (falling back to 1 when stored as 0, from the expression
rows_per_bed or 1) times the seed rate times the overplant factor. -/
def calc_direct_seed_seeds (totalBf : ℚ) (rowsPerBed : Nat) (seedRate : ℚ)
    (overplant : ℚ) : ℚ :=
  totalBf * (if rowsPerBed = 0 then 1 else (rowsPerBed : ℚ)) * seedRate * overplant

/-- The ounce conversion of _calc_direct_seed: defined only when
seeds_per_ounce is present and positive. -/
def direct_seed_ounces (seeds : ℚ) (seedsPerOunce : Option ℚ) : Option ℚ :=
  match seedsPerOunce with
  | some spo => if 0 < spo then some (seeds / spo) else none
  | none => none

/-! ## Planning matrix layout (planning/views.py, PlanningMatrixView) -/

/-- Window start week: max(1, center - 4). -/
def windowStart (center : Nat) : Nat := max 1 (center - 4)

/-- Window end week: min(52, window start + 15). -/
def windowEnd (center : Nat) : Nat := min 52 (windowStart center + 15)

/-- The visible week list: range(week_start, week_end + 1). -/
def windowWeeks (center : Nat) : List Nat :=
  List.range' (windowStart center) (windowEnd center + 1 - windowStart center)

/-- One grid segment of the matrix: column offset and span. -/
structure Segment where
  colStart : Nat
  colSpan : Nat
deriving DecidableEq, Repr

/-- Segment construction in PlanningMatrixView._build_matrix: clamp the
planting interval to the window and drop it when nothing remains visible. -/
def matrixSegment (weekStart weekEnd plantWeek harvestEnd : Nat) :
    Option Segment :=
  let firstVisible := max weekStart plantWeek
  let lastVisible := min weekEnd harvestEnd
  if lastVisible < firstVisible then none
  else some ⟨firstVisible - weekStart, lastVisible - firstVisible + 1⟩

/-! ## Weekly harvest entry status update (operations/views.py) -/

/-- The status-update pass of WeeklyHarvestEntryView.post for one planting
whose bins were submitted: a planted or growing planting becomes harvesting
and receives an actual first harvest date when it had none; every other
status is left untouched. -/
def updatePlantingOnBins (status : PStatus) (actualFirst : Option Int)
    (today : Int) : PStatus × Option Int :=
  if status = PStatus.planted ∨ status = PStatus.growing then
    (PStatus.harvesting,
      match actualFirst with
      | none => some today
      | some d => some d)
  else (status, actualFirst)

/-! ## Claim theorems -/

/-- Claim C1: the claim demands that after any insertion order of record
calls, every running balance equals the prefix sum at its (event_date,
creation order) position.  The code computes a balance only for the inserted
row and never recomputes later rows, so recording quantity 5 at day 10 and
then quantity 3 at the earlier day 5 leaves the day-10 row holding 5 while
its prefix sum is 8: the invariant fails. -/
theorem C1_ledger_no_forward_cascade :
    (runRecords [((10 : Int), (5 : ℚ)), (5, 3)]).map LedgerEntry.runningBalance
        = [5, 3]
  ∧ prefixSumAt (runRecords [((10 : Int), (5 : ℚ)), (5, 3)]) ⟨10, 0, 5, 5⟩ = 8
  ∧ ¬ ledgerConsistent (runRecords [((10 : Int), (5 : ℚ)), (5, 3)]) := by
  have hrun : runRecords [((10 : Int), (5 : ℚ)), (5, 3)] =
      [⟨10, 0, 5, 5⟩, ⟨5, 1, 3, 3⟩] := by
    norm_num [runRecords, recordEntry, lastOnOrBefore, ledgerLaterKey]
  refine ⟨by rw [hrun]; norm_num, ?_, ?_⟩
  · rw [hrun]
    norm_num [prefixSumAt, ledgerKeyLe]
  · rw [hrun]
    intro hcon
    have h1 := hcon ⟨10, 0, 5, 5⟩ (by norm_num)
    norm_num [prefixSumAt, ledgerKeyLe] at h1

/-- Claim C3: for first harvest date D1 at most last harvest date D2, the
generator emits events at D1, D1 + 7, D1 + 14, ... with constant quantity
weekly_yield_per_bedfoot times bedfeet, exactly floor((D2 - D1) / 7) + 1 of
them, and the weekly yield is total divided by harvest_weeks, 0 when
harvest_weeks is 0. -/
theorem C3_harvest_events (D1 D2 : Int) (total : ℚ) (hw : Nat) (bf : ℚ)
    (h : D1 ≤ D2) :
    generate_harvest_events D1 D2 (weekly_yield_per_bedfoot total hw * bf)
      = (List.range ((D2 - D1).toNat / 7 + 1)).map
          (fun i => ⟨D1 + 7 * (i : Int), weekly_yield_per_bedfoot total hw * bf⟩)
  ∧ (generate_harvest_events D1 D2 (weekly_yield_per_bedfoot total hw * bf)).length
      = (D2 - D1).toNat / 7 + 1
  ∧ weekly_yield_per_bedfoot total hw = (if hw = 0 then 0 else total / (hw : ℚ)) := by
  refine ⟨generate_harvest_events_closed_form _ _ _ h, ?_, ?_⟩
  · rw [generate_harvest_events_closed_form _ _ _ h]
    simp
  · unfold weekly_yield_per_bedfoot
    by_cases h0 : hw = 0 <;> simp [h0]

/-- Witness for C3: a 21-day span from day 0 to day 21 yields exactly 4
events. -/
theorem C3_harvest_events_witness :
    ((0 : Int) ≤ 21)
  ∧ (generate_harvest_events 0 21 (weekly_yield_per_bedfoot 6 3 * 2)).length = 4 :=
  ⟨by decide, by
    have h := (C3_harvest_events 0 21 6 3 2 (by decide)).2.1
    exact h.trans (by decide)⟩

/-- Claim C4: the claim demands plant date at most first harvest date at most
last harvest date for every profile, including harvest_weeks = 0.  With
harvest_weeks = 0 the derivation computes last = first + 7 times (0 - 1),
seven days before the first harvest date: a negative-length window. -/
theorem C4_zero_harvest_weeks_negative_window :
    derivePlannedHarvestWindow 0 30 0 = (30, 23)
  ∧ ¬ (derivePlannedHarvestWindow 0 30 0).1 ≤ (derivePlannedHarvestWindow 0 30 0).2 := by
  decide

/-- Counterexample for C2: with rule gap 3 and one history entry at 2022 for
(block 5, family 1), the entry has year inside [2025 - 3, 2025), so the
general rule of the claim demands a violation at 2025 while the claim's
example demands ok; the clone-plan check reports a violation at 2025
(contradicting the example) and the detail check reports ok at 2025
(contradicting the general rule), so no code path satisfies the claim. -/
theorem C2_boundary_mismatch :
    cloneRotationViolation [⟨1, 3⟩] [⟨5, 1, 2022⟩] 5 1 2025 = true
  ∧ detailRotationWarning [⟨1, 3⟩] [⟨5, 1, 2022⟩] 5 1 2025 = false
  ∧ ((2025 : Int) - 3 ≤ 2022 ∧ (2022 : Int) < 2025) := by
  decide

/-- Claim C2 as amended: the clone-plan check reports a violation exactly when
some history entry for (block, family) has year in [Y - gap, Y), hence it
also flags year Y = last seen year + gap; the detail check warns exactly when
Y minus the most recent matching year is below the gap, so with gap 3 and
history 2022 it reports ok at 2025 and a violation at 2024 with last-seen
2022; absence of a rule or of matching history yields ok on both paths. -/
theorem C2_rotation_amended :
    (∀ (history : List RotationHistoryRec) (block family minGap : Nat) (y : Int),
        cloneRotationViolation [⟨family, minGap⟩] history block family y = true ↔
          ∃ h ∈ history, h.block = block ∧ h.family = family ∧
            y - (minGap : Int) ≤ h.year ∧ h.year < y)
  ∧ (∀ (history : List RotationHistoryRec) (block family : Nat) (y : Int),
        cloneRotationViolation [] history block family y = false)
  ∧ (∀ (history : List RotationHistoryRec) (block family : Nat) (y : Int),
        detailRotationWarning [] history block family y = false)
  ∧ (∀ (rules : List RotationRuleRec) (block family : Nat) (y : Int),
        detailRotationWarning rules [] block family y = false)
  ∧ (∀ (history : List RotationHistoryRec) (block family minGap : Nat) (y : Int),
        detailRotationWarning [⟨family, minGap⟩] history block family y = true ↔
          ∃ m : Int, latestFamilyYear history block family = some m ∧
            y - m < (minGap : Int))
  ∧ detailRotationWarning [⟨1, 3⟩] [⟨5, 1, 2022⟩] 5 1 2025 = false
  ∧ detailRotationWarning [⟨1, 3⟩] [⟨5, 1, 2022⟩] 5 1 2024 = true
  ∧ latestFamilyYear [⟨5, 1, 2022⟩] 5 1 = some 2022
  ∧ cloneRotationViolation [⟨1, 3⟩] [⟨5, 1, 2022⟩] 5 1 2024 = true := by
  refine ⟨?_, ?_, ?_, ?_, ?_, by decide, by decide, by decide, by decide⟩
  · intro history block family minGap y
    simp only [cloneRotationViolation, findRule, List.find?, beq_self_eq_true,
      List.any_eq_true, Bool.and_eq_true, beq_iff_eq, decide_eq_true_eq]
    constructor
    · rintro ⟨h, hmem, ⟨⟨hb, hf⟩, h1⟩, h2⟩
      exact ⟨h, hmem, hb, hf, h1, h2⟩
    · rintro ⟨h, hmem, hb, hf, h1, h2⟩
      exact ⟨h, hmem, ⟨⟨hb, hf⟩, h1⟩, h2⟩
  · intro history block family y
    simp [cloneRotationViolation, findRule]
  · intro history block family y
    simp [detailRotationWarning, findRule]
  · intro rules block family y
    simp only [detailRotationWarning, latestFamilyYear, List.filter_nil,
      List.map_nil, List.max?_nil]
    cases findRule rules family <;> rfl
  · intro history block family minGap y
    cases hm : latestFamilyYear history block family with
    | none =>
      simp [detailRotationWarning, findRule, List.find?, hm]
    | some m =>
      simp [detailRotationWarning, findRule, List.find?, hm]

/-! ## Helper lemma for the weekly target fold -/

theorem weekTarget_foldl (wk : Nat) (chs : List SalesChannelRec) :
    ∀ acc : ℚ,
      chs.foldl
        (fun a ch =>
          if ch.startWeek ≤ wk ∧ wk ≤ ch.endWeek then a + ch.weeklyTarget else a)
        acc
      = acc + ((chs.filter
          (fun ch => decide (ch.startWeek ≤ wk ∧ wk ≤ ch.endWeek))).map
            SalesChannelRec.weeklyTarget).sum := by
  induction chs with
  | nil => intro acc; simp
  | cons ch rest ih =>
    intro acc
    by_cases h : ch.startWeek ≤ wk ∧ wk ≤ ch.endWeek
    · rw [List.foldl_cons, if_pos h, ih,
        List.filter_cons_of_pos (by simpa using h), List.map_cons, List.sum_cons]
      ring
    · rw [List.foldl_cons, if_neg h, ih,
        List.filter_cons_of_neg (by simpa using h)]

/-- Counterexample for C5: a channel with weekly target 100 active from week
50 through week 2 (wrapping the year boundary) should contribute to week 1
according to the claim, but the weekly-target loop tests start at most wk at
most end and therefore adds nothing for a wrapped channel. -/
theorem C5_wrap_ignored :
    weekTarget [⟨50, 2, 100⟩] 1 = 0
  ∧ weekTargetSpecWrapped [⟨50, 2, 100⟩] 1 = 100
  ∧ weekTarget [⟨50, 2, 100⟩] 1 ≠ weekTargetSpecWrapped [⟨50, 2, 100⟩] 1 := by
  refine ⟨?_, ?_, ?_⟩ <;> norm_num [weekTarget, weekTargetSpecWrapped]

/-- Claim C5 as amended: the weekly target sums weekly_target over the
channels with start_week at most w at most end_week, so a channel whose range
wraps the year boundary contributes to no week at all; the gap is projected
revenue minus target, a week is a deficit week when the gap is negative and a
surplus week when it is positive, and target 500 with revenue 300 gives gap
-200, a deficit. -/
theorem C5_revenue_amended :
    (∀ (chs : List SalesChannelRec) (wk : Nat),
        weekTarget chs wk = ((chs.filter
          (fun ch => decide (ch.startWeek ≤ wk ∧ wk ≤ ch.endWeek))).map
            SalesChannelRec.weeklyTarget).sum)
  ∧ (∀ (ch : SalesChannelRec) (wk : Nat),
        ch.endWeek < ch.startWeek → weekTarget [ch] wk = 0)
  ∧ (∀ p t : ℚ, isDeficitWeek (weekGap p t) = decide (p < t))
  ∧ (∀ p t : ℚ, isSurplusWeek (weekGap p t) = decide (t < p))
  ∧ weekGap 300 (weekTarget [⟨20, 40, 500⟩] 25) = -200
  ∧ isDeficitWeek (weekGap 300 (weekTarget [⟨20, 40, 500⟩] 25)) = true := by
  refine ⟨?_, ?_, ?_, ?_, ?_, ?_⟩
  · intro chs wk
    simpa using weekTarget_foldl wk chs 0
  · intro ch wk h
    simp only [weekTarget, List.foldl_cons, List.foldl_nil]
    rw [if_neg (by omega)]
  · intro p t
    simp only [isDeficitWeek, weekGap]
    exact decide_eq_decide.mpr sub_neg
  · intro p t
    simp only [isSurplusWeek, weekGap]
    exact decide_eq_decide.mpr sub_pos
  · norm_num [weekGap, weekTarget]
  · simp only [isDeficitWeek, decide_eq_true_eq]
    norm_num [weekGap, weekTarget]

/-- Witness for C5: a channel stored with end week 2 below start week 5
contributes nothing to week 3. -/
theorem C5_revenue_amended_witness :
    ((2 : Nat) < 5) ∧ weekTarget [⟨5, 2, 7⟩] 3 = 0 :=
  ⟨by decide, C5_revenue_amended.2.1 ⟨5, 2, 7⟩ 3 (by decide)⟩

/-- Counterexample for C6: for a crop with no units_per_bin conversion,
record_bins does not fail and does not leave the event unchanged: it stores
the bin count, stamps the recording date, and leaves actual_quantity unset.
No ConversionUnavailable failure path exists in the code. -/
theorem C6_no_failure_on_missing_conversion :
    (record_bins ⟨none, "tote", "lb"⟩ ⟨none, none, "", none, ""⟩ 3 none
        100).actualDate = some 100
  ∧ (record_bins ⟨none, "tote", "lb"⟩ ⟨none, none, "", none, ""⟩ 3 none
        100).actualBins = some 3
  ∧ (record_bins ⟨none, "tote", "lb"⟩ ⟨none, none, "", none, ""⟩ 3 none
        100).actualQuantity = none
  ∧ record_bins ⟨none, "tote", "lb"⟩ ⟨none, none, "", none, ""⟩ 3 none 100
      ≠ ⟨none, none, "", none, ""⟩ := by
  refine ⟨rfl, rfl, rfl, ?_⟩
  intro h
  exact absurd (congrArg HarvestActuals.actualDate h) (by simp [record_bins])

/-- Claim C6 as amended: with no conversion (units_per_bin absent, or stored
as 0 and hence falsy) record_bins silently records the bin count and the
recording date and leaves actual_quantity unchanged; with a nonzero
conversion it sets actual_quantity to bin_count times units_per_bin, the
units to the crop harvest unit, and actual_date to the recording date. -/
theorem C6_record_bins_amended (crop : CropBinInfo) (ev : HarvestActuals)
    (bc : ℚ) (today : Int) :
    (crop.unitsPerBin = none →
        (record_bins crop ev bc none today).actualQuantity = ev.actualQuantity
      ∧ (record_bins crop ev bc none today).actualDate = some today
      ∧ (record_bins crop ev bc none today).actualBins = some bc)
  ∧ (∀ upb : Nat, crop.unitsPerBin = some upb → upb ≠ 0 →
        (record_bins crop ev bc none today).actualQuantity = some (bc * (upb : ℚ))
      ∧ (record_bins crop ev bc none today).actualDate = some today
      ∧ (record_bins crop ev bc none today).actualUnits = crop.harvestUnit)
  ∧ (crop.unitsPerBin = some 0 →
        (record_bins crop ev bc none today).actualQuantity = ev.actualQuantity) := by
  refine ⟨?_, ?_, ?_⟩
  · intro h
    simp [record_bins, h]
  · intro upb h hn
    simp [record_bins, h, hn]
  · intro h
    simp [record_bins, h]

/-- Witness for C6: a crop with 24 units per bin converts 3 bins into
quantity 72. -/
theorem C6_record_bins_amended_witness :
    ((⟨some 24, "tote", "lb"⟩ : CropBinInfo).unitsPerBin = some 24)
  ∧ ((24 : Nat) ≠ 0)
  ∧ (record_bins ⟨some 24, "tote", "lb"⟩ ⟨none, none, "", none, ""⟩ 3 none
        100).actualQuantity = some 72 := by
  refine ⟨rfl, by decide, ?_⟩
  have h := ((C6_record_bins_amended ⟨some 24, "tote", "lb"⟩
      ⟨none, none, "", none, ""⟩ 3 100).2.1 24 rfl (by decide)).1
  rw [h]
  norm_num

/-! ## Helper lemmas for season-completion reconciliation -/

theorem updateOrCreateHistory_year (rows : List RotationHistoryRow) (b : Nat)
    (y : Int) (f : Nat) (hy : ∀ r ∈ rows, r.year = y) :
    ∀ r ∈ updateOrCreateHistory rows b y f, r.year = y := by
  intro r hr
  unfold updateOrCreateHistory at hr
  by_cases hc : (rows.any (fun r => decide (r.block = b) && decide (r.year = y))) = true
  · rw [if_pos hc] at hr
    obtain ⟨s, hs, hrs⟩ := List.mem_map.1 hr
    by_cases hsb : s.block = b ∧ s.year = y
    · rw [if_pos hsb] at hrs
      rw [← hrs]
      exact hy s hs
    · rw [if_neg hsb] at hrs
      rw [← hrs]
      exact hy s hs
  · rw [if_neg hc] at hr
    rcases List.mem_append.1 hr with h1 | h2
    · exact hy r h1
    · rw [List.mem_singleton] at h2
      rw [h2]

theorem updateOrCreateHistory_blocks (rows : List RotationHistoryRow) (b : Nat)
    (y : Int) (f : Nat) (hy : ∀ r ∈ rows, r.year = y) :
    (updateOrCreateHistory rows b y f).map RotationHistoryRow.block
        = rows.map RotationHistoryRow.block
  ∨ ((updateOrCreateHistory rows b y f).map RotationHistoryRow.block
        = rows.map RotationHistoryRow.block ++ [b]
      ∧ b ∉ rows.map RotationHistoryRow.block) := by
  unfold updateOrCreateHistory
  by_cases hc : (rows.any (fun r => decide (r.block = b) && decide (r.year = y))) = true
  · left
    rw [if_pos hc, List.map_map]
    apply List.map_congr_left
    intro s _
    by_cases hsb : s.block = b ∧ s.year = y <;> simp [hsb]
  · right
    rw [if_neg hc]
    refine ⟨by simp, ?_⟩
    intro hb
    obtain ⟨s, hs, hsb⟩ := List.mem_map.1 hb
    exact hc (List.any_eq_true.2 ⟨s, hs, by simp [hsb, hy s hs]⟩)

theorem completeSeasonStep_inv (year : Int)
    (st : List (Nat × Nat) × List RotationHistoryRow) (p : SeasonPlanting)
    (h1 : (st.2.map RotationHistoryRow.block).Nodup)
    (h2 : ∀ r ∈ st.2, r.year = year) :
    ((completeSeasonStep year st p).2.map RotationHistoryRow.block).Nodup
      ∧ ∀ r ∈ (completeSeasonStep year st p).2, r.year = year := by
  unfold completeSeasonStep
  by_cases hs : p.status = PStatus.complete ∨ p.status = PStatus.harvesting
  · rw [if_pos hs]
    cases hf : p.family with
    | none => exact ⟨h1, h2⟩
    | some f =>
      dsimp only
      by_cases hmem : (p.block, f) ∈ st.1
      · rw [if_pos hmem]
        exact ⟨h1, h2⟩
      · rw [if_neg hmem]
        refine ⟨?_, updateOrCreateHistory_year st.2 p.block year f h2⟩
        rcases updateOrCreateHistory_blocks st.2 p.block year f h2 with he | ⟨he, hnb⟩
        · rw [he]
          exact h1
        · rw [he]
          refine List.Nodup.append h1 (List.nodup_singleton _) ?_
          intro a ha hb
          rw [List.mem_singleton] at hb
          rw [hb] at ha
          exact hnb ha
  · rw [if_neg hs]
    exact ⟨h1, h2⟩

theorem completeSeason_fold_inv (year : Int) (ps : List SeasonPlanting) :
    ∀ st : List (Nat × Nat) × List RotationHistoryRow,
      (st.2.map RotationHistoryRow.block).Nodup →
      (∀ r ∈ st.2, r.year = year) →
      (((ps.foldl (completeSeasonStep year) st).2.map
          RotationHistoryRow.block).Nodup
        ∧ ∀ r ∈ (ps.foldl (completeSeasonStep year) st).2, r.year = year) := by
  induction ps with
  | nil =>
    intro st h1 h2
    exact ⟨h1, h2⟩
  | cons p rest ih =>
    intro st h1 h2
    rw [List.foldl_cons]
    obtain ⟨g1, g2⟩ := completeSeasonStep_inv year st p h1 h2
    exact ih _ g1 g2

/-- Counterexample for C7: two completed plantings on block 1 with different
families 10 and 20 in year 2024.  The claim says the first-seen family wins
and is never overwritten, but update_or_create is keyed on (block, year)
only, so the second planting overwrites the family of the existing row: the
final history holds family 20 and the first-seen family 10 is gone. -/
theorem C7_family_overwritten :
    completeSeasonHistory
        [⟨1, some 10, PStatus.complete⟩, ⟨1, some 20, PStatus.complete⟩] 2024
      = [⟨1, 2024, 20⟩]
  ∧ (⟨1, 2024, 10⟩ : RotationHistoryRow) ∉
      completeSeasonHistory
        [⟨1, some 10, PStatus.complete⟩, ⟨1, some 20, PStatus.complete⟩] 2024 := by
  decide

/-- Claim C7 as amended: the run writes at most one history row per (block,
year) and every row carries the completed year; plantings without complete or
harvesting status, or without a family, contribute nothing; a repeated
(block, family) pair is a no-op; but when a second planting on the same block
carries a different family, it overwrites the (block, year) row, so the last
distinct family seen wins rather than the first. -/
theorem C7_season_rotation_amended :
    (∀ (ps : List SeasonPlanting) (year : Int),
        ((completeSeasonHistory ps year).map RotationHistoryRow.block).Nodup
      ∧ ∀ r ∈ completeSeasonHistory ps year, r.year = year)
  ∧ (∀ (p : SeasonPlanting) (ps : List SeasonPlanting) (year : Int),
        (p.status ≠ PStatus.complete ∧ p.status ≠ PStatus.harvesting) →
        completeSeasonHistory (p :: ps) year = completeSeasonHistory ps year)
  ∧ (∀ (p : SeasonPlanting) (ps : List SeasonPlanting) (year : Int),
        p.family = none →
        completeSeasonHistory (p :: ps) year = completeSeasonHistory ps year)
  ∧ (∀ (b f : Nat) (ps : List SeasonPlanting) (year : Int),
        completeSeasonHistory (⟨b, some f, PStatus.complete⟩ ::
            ⟨b, some f, PStatus.complete⟩ :: ps) year
          = completeSeasonHistory (⟨b, some f, PStatus.complete⟩ :: ps) year)
  ∧ (∀ (b f g : Nat) (year : Int), f ≠ g →
        completeSeasonHistory [⟨b, some f, PStatus.complete⟩,
            ⟨b, some g, PStatus.complete⟩] year = [⟨b, year, g⟩]) := by
  refine ⟨?_, ?_, ?_, ?_, ?_⟩
  · intro ps year
    exact completeSeason_fold_inv year ps ([], []) (by simp) (by simp)
  · intro p ps year h
    unfold completeSeasonHistory
    rw [List.foldl_cons]
    have hstep : completeSeasonStep year ([], []) p = ([], []) := by
      unfold completeSeasonStep
      rw [if_neg (not_or.2 ⟨h.1, h.2⟩)]
    rw [hstep]
  · intro p ps year h
    unfold completeSeasonHistory
    rw [List.foldl_cons]
    have hstep : completeSeasonStep year ([], []) p = ([], []) := by
      unfold completeSeasonStep
      by_cases hs : p.status = PStatus.complete ∨ p.status = PStatus.harvesting
      · rw [if_pos hs, h]
      · rw [if_neg hs]
    rw [hstep]
  · intro b f ps year
    unfold completeSeasonHistory
    rw [List.foldl_cons, List.foldl_cons, List.foldl_cons]
    have h1 : completeSeasonStep year ([], []) ⟨b, some f, PStatus.complete⟩
        = ([(b, f)], [⟨b, year, f⟩]) := by
      unfold completeSeasonStep updateOrCreateHistory
      simp
    have h2 : completeSeasonStep year ([(b, f)], [⟨b, year, f⟩])
        ⟨b, some f, PStatus.complete⟩ = ([(b, f)], [⟨b, year, f⟩]) := by
      unfold completeSeasonStep
      simp
    rw [h1, h2]
  · intro b f g year hfg
    unfold completeSeasonHistory
    rw [List.foldl_cons, List.foldl_cons, List.foldl_nil]
    have h1 : completeSeasonStep year ([], []) ⟨b, some f, PStatus.complete⟩
        = ([(b, f)], [⟨b, year, f⟩]) := by
      unfold completeSeasonStep updateOrCreateHistory
      simp
    have h2 : completeSeasonStep year ([(b, f)], [⟨b, year, f⟩])
        ⟨b, some g, PStatus.complete⟩
        = ((b, g) :: [(b, f)], [⟨b, year, g⟩]) := by
      unfold completeSeasonStep updateOrCreateHistory
      simp [Prod.ext_iff, Ne.symm hfg]
    rw [h1, h2]

/-- Witness for C7: on block 2 the families 3 then 4 are both recorded
through update_or_create, and the surviving row carries the later family 4. -/
theorem C7_season_rotation_amended_witness :
    ((3 : Nat) ≠ 4)
  ∧ completeSeasonHistory [⟨2, some 3, PStatus.complete⟩,
        ⟨2, some 4, PStatus.complete⟩] 2030 = [⟨2, 2030, 4⟩] :=
  ⟨by decide,
    C7_season_rotation_amended.2.2.2.2 2 3 4 2030 (by decide)⟩

/-- Counterexample for C8: the claim ladder sends every amount of 4 ounces or
more to ceiling pounds, but at 5 ounces the code returns the ceiling-ounce
form with the fractional pound conversion shown alongside, not a
ceiling-pound order of 1 lb. -/
theorem C8_five_ounce_not_pounds :
    round_order (some 5) = SeedOrderSize.ozCeilWithLb 5 (5 / 16)
  ∧ round_order (some 5) ≠ SeedOrderSize.lbCeil 1 := by
  have h : round_order (some 5) = SeedOrderSize.ozCeilWithLb 5 (5 / 16) := by
    norm_num [round_order]
  refine ⟨h, ?_⟩
  rw [h]
  intro hc
  exact SeedOrderSize.noConfusion hc

/-- Claim C8 as amended: seeds equal aggregated bedfeet times rows_per_bed
(nonzero) times seed rate times overplant factor, and the ladder is: below
0.1 oz a packet; below 1/4 oz a quarter ounce; below 1/2 oz a half ounce;
below 1 oz one ounce; below 4 oz ceiling ounces; from 4 up to below 16 oz
ceiling ounces with the pound fraction shown alongside; only from 16 oz on
ceiling pounds.  The claimed examples 0.08 oz and 0.3 oz behave as claimed;
5 oz lands in the ounces-with-pounds band. -/
theorem C8_seed_order_amended :
    (∀ (bedfeet : List Nat) (rows : Nat) (rate overplant : ℚ), rows ≠ 0 →
        calc_direct_seed_seeds (totalBedfeetForCrop bedfeet : ℚ) rows rate overplant
          = (totalBedfeetForCrop bedfeet : ℚ) * (rows : ℚ) * rate * overplant)
  ∧ (∀ oz : ℚ, oz < 1 / 10 → round_order (some oz) = SeedOrderSize.pkt)
  ∧ (∀ oz : ℚ, 1 / 10 ≤ oz → oz < 1 / 4 →
        round_order (some oz) = SeedOrderSize.quarterOz)
  ∧ (∀ oz : ℚ, 1 / 4 ≤ oz → oz < 1 / 2 →
        round_order (some oz) = SeedOrderSize.halfOz)
  ∧ (∀ oz : ℚ, 1 / 2 ≤ oz → oz < 1 →
        round_order (some oz) = SeedOrderSize.oneOz)
  ∧ (∀ oz : ℚ, 1 ≤ oz → oz < 4 →
        round_order (some oz) = SeedOrderSize.ozCeil ⌈oz⌉)
  ∧ (∀ oz : ℚ, 4 ≤ oz → oz < 16 →
        round_order (some oz) = SeedOrderSize.ozCeilWithLb ⌈oz⌉ (oz / 16))
  ∧ (∀ oz : ℚ, 16 ≤ oz →
        round_order (some oz) = SeedOrderSize.lbCeil ⌈oz / 16⌉)
  ∧ round_order (some (8 / 100)) = SeedOrderSize.pkt
  ∧ round_order (some (3 / 10)) = SeedOrderSize.halfOz
  ∧ round_order (some 5) = SeedOrderSize.ozCeilWithLb 5 (5 / 16) := by
  refine ⟨?_, ?_, ?_, ?_, ?_, ?_, ?_, ?_, ?_, ?_, ?_⟩
  · intro bedfeet rows rate overplant h
    simp [calc_direct_seed_seeds, h]
  · intro oz h
    simp only [round_order]
    rw [if_pos h]
  · intro oz h1 h2
    simp only [round_order]
    rw [if_neg (not_lt.2 h1), if_pos h2]
  · intro oz h1 h2
    simp only [round_order]
    rw [if_neg (not_lt.2 (by linarith)), if_neg (not_lt.2 h1), if_pos h2]
  · intro oz h1 h2
    simp only [round_order]
    rw [if_neg (not_lt.2 (by linarith)), if_neg (not_lt.2 (by linarith)),
      if_neg (not_lt.2 h1), if_pos h2]
  · intro oz h1 h2
    simp only [round_order]
    rw [if_neg (not_lt.2 (by linarith)), if_neg (not_lt.2 (by linarith)),
      if_neg (not_lt.2 (by linarith)), if_neg (not_lt.2 h1), if_pos h2]
  · intro oz h1 h2
    simp only [round_order]
    rw [if_neg (not_lt.2 (by linarith)), if_neg (not_lt.2 (by linarith)),
      if_neg (not_lt.2 (by linarith)), if_neg (not_lt.2 (by linarith)),
      if_neg (not_lt.2 h1),
      if_pos ((div_lt_one (by norm_num : (0 : ℚ) < 16)).2 h2)]
  · intro oz h1
    simp only [round_order]
    rw [if_neg (not_lt.2 (by linarith)), if_neg (not_lt.2 (by linarith)),
      if_neg (not_lt.2 (by linarith)), if_neg (not_lt.2 (by linarith)),
      if_neg (not_lt.2 (by linarith)),
      if_neg (not_lt.2 ((one_le_div (by norm_num : (0 : ℚ) < 16)).2 h1))]
  · norm_num [round_order]
  · norm_num [round_order]
  · norm_num [round_order]

/-- Witness for C8: 0.3 ounces lies between a quarter and a half ounce and
rounds to the half-ounce order. -/
theorem C8_seed_order_amended_witness :
    ((1 : ℚ) / 4 ≤ 3 / 10) ∧ ((3 : ℚ) / 10 < 1 / 2)
  ∧ round_order (some (3 / 10)) = SeedOrderSize.halfOz :=
  ⟨by norm_num, by norm_num,
    C8_seed_order_amended.2.2.2.1 (3 / 10) (by norm_num) (by norm_num)⟩

/-- Counterexample for C9: the claim demands a window of exactly 16 ISO weeks
for every center week, but centering on week 52 clamps the window to
[48, 52], which holds only 5 weeks. -/
theorem C9_window_clamped_short :
    (windowWeeks 52).length = 5 ∧ (windowWeeks 52).length ≠ 16 := by
  decide

/-- Claim C9 as amended: the window starts at max(1, center - 4) and ends at
min(52, start + 15); it holds exactly 16 weeks when the center is at most 41
and is clamped shorter (57 - center weeks) for centers 42 through 52; center
30 gives [26, 41]; a planting appears exactly when its [plant_week,
harvest_end_week] interval meets the window, with col_start and col_span as
claimed; a planting spanning weeks [10, 45] inside window [26, 41] renders
with col_start 0 and col_span 16. -/
theorem C9_matrix_amended :
    (∀ c : Nat, 1 ≤ c → c ≤ 41 → (windowWeeks c).length = 16)
  ∧ (∀ c : Nat, 42 ≤ c → c ≤ 52 → (windowWeeks c).length = 57 - c)
  ∧ windowStart 30 = 26
  ∧ windowEnd 30 = 41
  ∧ (∀ ws we pw he : Nat, ws ≤ we → pw ≤ he →
        (matrixSegment ws we pw he = none ↔ (he < ws ∨ we < pw)))
  ∧ (∀ ws we pw he : Nat, ¬ min we he < max ws pw →
        matrixSegment ws we pw he
          = some ⟨max ws pw - ws, min we he - (ws + (max ws pw - ws)) + 1⟩)
  ∧ matrixSegment 26 41 10 45 = some ⟨0, 16⟩ := by
  refine ⟨?_, ?_, by decide, by decide, ?_, ?_, by decide⟩
  · intro c h1 h2
    simp only [windowWeeks, List.length_range', windowStart, windowEnd]
    omega
  · intro c h1 h2
    simp only [windowWeeks, List.length_range', windowStart, windowEnd]
    omega
  · intro ws we pw he hw hp
    have hbase : matrixSegment ws we pw he = none ↔ min we he < max ws pw := by
      by_cases h : min we he < max ws pw
      · simp [matrixSegment, h]
      · simp [matrixSegment, h]
    rw [hbase]
    omega
  · intro ws we pw he h
    simp only [matrixSegment, if_neg h, Option.some.injEq, Segment.mk.injEq]
    refine ⟨by trivial, by omega⟩

/-- Witness for C9: center week 30 yields a full 16-week window. -/
theorem C9_matrix_amended_witness :
    ((1 : Nat) ≤ 30) ∧ ((30 : Nat) ≤ 41) ∧ (windowWeeks 30).length = 16 :=
  ⟨by decide, by decide, C9_matrix_amended.1 30 (by decide) (by decide)⟩

/-- Claim C10: recording bins for an event of a planted or growing planting
turns its status to harvesting, stamps an unset actual first harvest date
with the recording date while preserving a set one, and any other status
leaves the planting untouched by this path. -/
theorem C10_harvest_status_update (status : PStatus) (afhd : Option Int)
    (today : Int) :
    ((status = PStatus.planted ∨ status = PStatus.growing) →
        (updatePlantingOnBins status afhd today).1 = PStatus.harvesting
      ∧ (afhd = none → (updatePlantingOnBins status afhd today).2 = some today)
      ∧ (∀ d : Int, afhd = some d →
          (updatePlantingOnBins status afhd today).2 = some d))
  ∧ (status ≠ PStatus.planted → status ≠ PStatus.growing →
        updatePlantingOnBins status afhd today = (status, afhd)) := by
  constructor
  · intro h
    refine ⟨?_, ?_, ?_⟩
    · simp [updatePlantingOnBins, h]
    · intro hn
      simp [updatePlantingOnBins, h, hn]
    · intro d hd
      simp [updatePlantingOnBins, h, hd]
  · intro h1 h2
    simp [updatePlantingOnBins, h1, h2]

/-- Witness for C10: a planted planting with no recorded first harvest date
becomes harvesting with the date stamped to day 7. -/
theorem C10_harvest_status_update_witness :
    (PStatus.planted = PStatus.planted ∨ PStatus.planted = PStatus.growing)
  ∧ (updatePlantingOnBins PStatus.planted none 7).1 = PStatus.harvesting
  ∧ (updatePlantingOnBins PStatus.planted none 7).2 = some 7 := by
  have h := (C10_harvest_status_update PStatus.planted none 7).1 (Or.inl rfl)
  refine ⟨Or.inl rfl, ?_, ?_⟩
  · exact h.1
  · exact h.2.1 rfl
